import Mathlib

/-!
# web3-cli: command functions of `main.go`

A shallow embedding of the command functions of `src/main.go`
(`getRPCURL`, `parseBigInt`, `GetBlockDetails`, `GetTransactionDetails`,
`GetAddressDetails`, `GetSnapshot`, `BuildSol`, `DeploySol`, `marshalJSON`).

* Go `string` and `[]byte` are byte sequences (`GoString`); the conversions
  `string(b)` and `[]byte(s)` are the identity on them.
* A command is a function from the state of the outside world (`σ`: the node
  behind the RPC endpoint, the file system, the compiler) to a result `Res`:
  how the run ended, the state of the outside world afterwards, and the trace
  of what the run did (collaborator calls, lines on standard output, messages
  of the logger).
* `log.Fatal`/`log.Fatalf` end the process (`Outcome.fatal`); what the source
  has after them is not run.
* What `main.go` calls but does not define is a field of `Env` or `Client`:
  `GetClient`, `CompileSolidityString`, the RPC client's methods, the `os` and
  `ioutil` file functions, `fmt.Sscan`, the string quoting of `encoding/json`.
-/

namespace Web3Cli

/-! ## Values -/

/-- A Go `string` or `[]byte`: a sequence of bytes. -/
abbrev GoString := List UInt8

/-- The bytes (UTF-8) of a source literal. -/
def goStr (s : String) : GoString := s.data.flatMap String.utf8EncodeChar

/-- A non-nil Go `error`: its message, and what `os.IsNotExist` answers on it. -/
structure GoError where
  msg : GoString
  notExist : Bool

/-- A JSON document, as `encoding/json` builds it from a value. `lit` is a
token written as it stands (a number, `true`, `false`); `str` is a Go string,
quoted when the document is written out. -/
inductive JSON where
  | null
  | lit (tok : GoString)
  | str (s : GoString)
  | arr (xs : List JSON)
  | obj (kvs : List (GoString × JSON))

/-- What `encoding/json` makes of a value: a document, or an error. -/
abbrev Encoded := Except GoError JSON

/-- The Go `types.Header`, seen through its JSON encoding. -/
structure Header where
  json : Encoded

/-- The Go `types.Block`: `block.Header()`. -/
structure Block where
  Header : Header

/-- The Go `types.Transaction`: its JSON encoding and `tx.Hash().Hex()`. -/
structure Transaction where
  json : Encoded
  HashHex : GoString

/-- The Go `types.Receipt`: `receipt.ContractAddress.Hex()`. -/
structure Receipt where
  ContractAddressHex : GoString

/-- The clique snapshot, seen through its JSON encoding. -/
structure Snapshot where
  json : Encoded

/-- The Go `compiler.ContractInfo`: the encoding of `AbiDefinition` (an `interface{}`). -/
structure ContractInfo where
  AbiDefinition : Encoded

/-- The Go `compiler.Contract`. -/
structure Contract where
  RuntimeCode : GoString
  Info : ContractInfo

/-- The `map[string]*compiler.Contract` of `CompileSolidityString`: its entries
in the order in which `range` visits them in this run, and the JSON encoding
of the whole map. -/
structure CompileData where
  entries : List (GoString × Contract)
  json : Encoded

/-- The Go `addressDetails` of `main.go`: `Balance *big.Int`, `Code *string`. -/
structure addressDetails where
  Balance : Option Int
  Code : Option GoString

/-! ## Traces -/

/-- An operand of a log message. -/
inductive Arg where
  | str (s : GoString)
  | err (e : GoError)

/-- A call to a collaborator that `main.go` does not define. -/
inductive Call where
  | GetClient (url : GoString)
  | GetBlockByNumber (number : Option Int)
  | GetTransactionByHash (hash : GoString)
  | GetBalance (address : GoString) (blockNumber : Option Int)
  | GetCode (address : GoString) (blockNumber : Option Int)
  | GetSnapshot
  | DeployContract (privateKey : GoString) (contractData : GoString)
  | WaitForReceipt (tx : Transaction)
  | CompileSolidityString (source : GoString)
  | Stat (name : GoString)
  | ReadFile (filename : GoString)
  | WriteFile (filename : GoString) (data : GoString) (perm : Nat)

/-- One observable step of a run. -/
inductive Event where
  /-- a collaborator was called; `err` is the error it returned, if any -/
  | call (c : Call) (err : Option GoError)
  /-- bytes written to standard output -/
  | stdout (text : GoString)
  /-- a line of `log.Println(args...)` on standard error -/
  | log (args : List Arg)
  /-- a line of `log.Fatal`/`log.Fatalf` on standard error, then `os.Exit(1)` -/
  | fatal (format : String) (args : List Arg)

/-- How a run ends: it returns, the logger ends the process (`fatal`), or the
Go runtime panics. -/
inductive Outcome (α : Type) where
  | ret (a : α)
  | fatal
  | panic

/-- The result of a run from a state of the outside world. -/
structure Res (σ α : Type) where
  out : Outcome α
  ext : σ
  trace : List Event

/-- A piece of the program: it runs from a state of the outside world. -/
def Proc (σ α : Type) : Type := σ → Res σ α

/-- Return without doing anything. -/
def Proc.pure {σ α : Type} (a : α) : Proc σ α := fun s => ⟨.ret a, s, []⟩

/-- Sequencing: the second piece runs only if the first returns. -/
def Proc.bind {σ α β : Type} (m : Proc σ α) (f : α → Proc σ β) : Proc σ β := fun s =>
  match m s with
  | ⟨.ret a, s1, t1⟩ => ⟨(f a s1).out, (f a s1).ext, t1 ++ (f a s1).trace⟩
  | ⟨.fatal, s1, t1⟩ => ⟨.fatal, s1, t1⟩
  | ⟨.panic, s1, t1⟩ => ⟨.panic, s1, t1⟩

instance {σ : Type} : Monad (Proc σ) where
  pure := Proc.pure
  bind := Proc.bind

/-- Record one event. -/
def emit {σ : Type} (e : Event) : Proc σ Unit := fun s => ⟨.ret (), s, [e]⟩

/-- The Go `log.Println(args...)`. -/
def logPrintln {σ : Type} (args : List Arg) : Proc σ Unit := emit (.log args)

/-- The Go `log.Fatalf(format, args...)` (and `log.Fatal(args...)`, with the format
`""`): the message, then the process ends. -/
def logFatalf {σ : Type} (format : String) (args : List Arg) : Proc σ Unit :=
  fun s => ⟨.fatal, s, [.fatal format args]⟩

/-- A run-time panic of Go. -/
def goPanic {σ α : Type} : Proc σ α := fun s => ⟨.panic, s, []⟩

/-- The Go `fmt.Println(args...)` on strings: the operands separated by one space,
then a newline. -/
def Println {σ : Type} (args : List GoString) : Proc σ Unit :=
  emit (.stdout ((goStr " ").intercalate args ++ goStr "\n"))

/-- The error of a `(value, error)` result, `none` for nil. -/
def errorOf {α : Type} : Except GoError α → Option GoError
  | .ok _ => none
  | .error e => some e

/-- Call a collaborator that returns `(value, error)`. -/
def callC {σ α : Type} (c : Call) (f : σ → Except GoError α × σ) :
    Proc σ (Except GoError α) := fun s =>
  ⟨.ret (f s).1, (f s).2, [.call c (errorOf (f s).1)]⟩

/-- Call a collaborator that returns only an `error`. -/
def callE {σ : Type} (c : Call) (f : σ → Option GoError × σ) :
    Proc σ (Option GoError) := fun s =>
  ⟨.ret (f s).1, (f s).2, [.call c (f s).1]⟩

/-! ## `encoding/json` -/

/-- The indentation of `json.MarshalIndent(v, "", "  ")` at a depth. -/
def indentation : Nat → GoString
  | 0 => []
  | d + 1 => goStr "  " ++ indentation d

mutual
/-- The text of a document as `json.MarshalIndent(v, "", "  ")` lays it out,
for a value nested `d` levels deep; `q` quotes a Go string. -/
def render (q : GoString → GoString) (d : Nat) : JSON → GoString
  | .null => goStr "null"
  | .lit tok => tok
  | .str s => q s
  | .arr [] => goStr "[]"
  | .arr (x :: xs) =>
      goStr "[\n" ++ indentation (d + 1) ++ render q (d + 1) x ++ renderElems q d xs
  | .obj [] => goStr "\x7b\x7d"
  | .obj ((k, v) :: kvs) =>
      goStr "\x7b\n" ++ indentation (d + 1) ++ q k ++ goStr ": " ++ render q (d + 1) v
        ++ renderMembers q d kvs
/-- The elements of an array after the first, and the closing bracket. -/
def renderElems (q : GoString → GoString) (d : Nat) : List JSON → GoString
  | [] => goStr "\n" ++ indentation d ++ goStr "]"
  | x :: xs =>
      goStr ",\n" ++ indentation (d + 1) ++ render q (d + 1) x ++ renderElems q d xs
/-- The members of an object after the first, and the closing brace. -/
def renderMembers (q : GoString → GoString) (d : Nat) : List (GoString × JSON) → GoString
  | [] => goStr "\n" ++ indentation d ++ goStr "\x7d"
  | (k, v) :: kvs =>
      goStr ",\n" ++ indentation (d + 1) ++ q k ++ goStr ": " ++ render q (d + 1) v
        ++ renderMembers q d kvs
end

/-- The keys of a JSON object (none for a document that is not an object). -/
def JSON.keys : JSON → List GoString
  | .obj kvs => kvs.map Prod.fst
  | _ => []

/-- The value of the first member with key `k` of a JSON object. -/
def JSON.member (k : GoString) : JSON → Option JSON
  | .obj kvs => (kvs.find? (fun kv => kv.1 == k)).map Prod.snd
  | _ => none

/-- How `encoding/json` encodes a `*big.Int`: `null` for nil, else the decimal
digits (`big.Int.MarshalJSON`). -/
def encodeBigInt : Option Int → JSON
  | none => .null
  | some i => .lit (goStr (toString i))

/-- How `encoding/json` encodes a `*string`: `null` for nil, else a string. -/
def encodeStringPtr : Option GoString → JSON
  | none => .null
  | some s => .str s

/-- How `encoding/json` encodes a `bool`. -/
def encodeBool (b : Bool) : JSON := .lit (goStr (if b then "true" else "false"))

/-- How `encoding/json` encodes an `addressDetails`: the struct has no field
tags, so each exported field is a member under the field's name, in the order
of declaration, and a nil pointer is `null`. -/
def addressDetails.encode (ad : addressDetails) : Encoded :=
  .ok (.obj [(goStr "Balance", encodeBigInt ad.Balance), (goStr "Code", encodeStringPtr ad.Code)])

/-- How `encoding/json` encodes the local struct `details` of
`GetTransactionDetails` (`Transaction *types.Transaction`, `Pending bool`). -/
def details.encode (tx : Transaction) (isPending : Bool) : Encoded :=
  match tx.json with
  | .ok j => .ok (.obj [(goStr "Transaction", j), (goStr "Pending", encodeBool isPending)])
  | .error e => .error e

/-! ## Collaborators -/

/-- The RPC client that `GetClient` returns. -/
structure Client (σ : Type) where
  GetBlockByNumber : Option Int → σ → Except GoError Block × σ
  GetTransactionByHash : GoString → σ → Except GoError (Transaction × Bool) × σ
  GetBalance : GoString → Option Int → σ → Except GoError (Option Int) × σ
  GetCode : GoString → Option Int → σ → Except GoError GoString × σ
  GetSnapshot : σ → Except GoError Snapshot × σ
  DeployContract : GoString → GoString → σ → Except GoError Transaction × σ
  WaitForReceipt : Transaction → σ → Except GoError Receipt × σ

/-- What `main.go` uses and does not define, and the global `verbose`. -/
structure Env (σ : Type) where
  /-- the package variable `verbose` -/
  verbose : Bool
  /-- The Go `GetClient(url)`: a client, or `none` when it ends the process -/
  GetClient : GoString → σ → Option (Client σ) × σ
  /-- The Go `CompileSolidityString(source)` -/
  CompileSolidityString : GoString → σ → Except GoError CompileData × σ
  /-- The Go `fmt.Sscan(value, &i)` for `i big.Int`: the value left in `i`, and the error -/
  Sscan : GoString → Int × Option GoError
  /-- The Go `os.Stat(name)`: its error -/
  Stat : GoString → σ → Option GoError × σ
  /-- The Go `ioutil.ReadFile(filename)` -/
  ReadFile : GoString → σ → Except GoError GoString × σ
  /-- The Go `ioutil.WriteFile(filename, data, perm)` -/
  WriteFile : GoString → GoString → Nat → σ → Option GoError × σ
  /-- how `encoding/json` writes a Go string as a JSON string literal -/
  quote : GoString → GoString

/-- The Go `GetClient(url)`. -/
def GetClient {σ : Type} (env : Env σ) (url : GoString) : Proc σ (Client σ) := fun s =>
  match env.GetClient url s with
  | (some client, s1) => ⟨.ret client, s1, [.call (.GetClient url) none]⟩
  | (none, s1) => ⟨.fatal, s1, [.call (.GetClient url) none]⟩

/-! ## `main.go` -/

/-- The Go `getRPCURL` (main.go 128-158). -/
def getRPCURL {σ : Type} (env : Env σ) (network rpcURL : GoString) : Proc σ GoString := do
  let mut rpcURL := rpcURL
  if rpcURL ≠ goStr "" then
    if network ≠ goStr "" then
      logFatalf "Cannot set both rpcURL %q and network %q" [.str rpcURL, .str network]
  else
    if network = goStr "testnet" then
      rpcURL := goStr "https://testnet-rpc.gochain.io"
    else if network = goStr "mainnet" then
      rpcURL := goStr "https://rpc.gochain.io"
    else if network = goStr "localhost" then
      rpcURL := goStr "http://localhost:8545"
    else if network = goStr "ethereum" then
      rpcURL := goStr "https://main-rpc.linkpool.io"
    else if network = goStr "ropsten" then
      rpcURL := goStr "https://ropsten-rpc.linkpool.io"
    else
      logFatalf "" [.str (goStr "Unrecognized network:"), .str network]
      return goStr ""
    if env.verbose then
      logPrintln [.str (goStr "Network:"), .str network]
  if env.verbose then
    logPrintln [.str (goStr "RPC URL:"), .str rpcURL]
  return rpcURL


/-- The Go `json.MarshalIndent(data, "", "  ")`: the bytes and the error. -/
def MarshalIndent {σ : Type} (env : Env σ) (data : Encoded) : GoString × Option GoError :=
  match data with
  | .ok j => (render env.quote 0 j, none)
  | .error e => ([], some e)

/-- The Go `marshalJSON` (main.go 290-296). -/
def marshalJSON {σ : Type} (env : Env σ) (data : Encoded) : Proc σ GoString := do
  let (b, err) := MarshalIndent env data
  if let some err := err then
    logFatalf "Cannot marshal json: %v" [.err err]
  return b

/-- The Go `parseBigInt` (main.go 159-166): the pointer (nil is `none`) and the error. -/
def parseBigInt {σ : Type} (env : Env σ) (value : GoString) : Option Int × Option GoError :=
  if value = goStr "" then
    (none, none)
  else
    let (i, err) := env.Sscan value
    (some i, err)

/-- The Go `GetBlockDetails` (main.go 168-182). -/
def GetBlockDetails {σ : Type} (env : Env σ) (network rpcURL blockNumber : GoString) :
    Proc σ Unit := do
  let url ← getRPCURL env network rpcURL
  let client ← GetClient env url
  let (blockN, err) := parseBigInt env blockNumber
  if let some err := err then
    logFatalf "block number must be integer %q: %v" [.str blockNumber, .err err]
  let r ← callC (.GetBlockByNumber blockN) (client.GetBlockByNumber blockN)
  match r with
  | .error err => logFatalf "Cannot get block details from the network: %v" [.err err]
  | .ok block =>
    if env.verbose then
      logPrintln [.str (goStr "Block details:")]
    let text ← marshalJSON env block.Header.json
    Println [text]

/-- The Go `GetTransactionDetails` (main.go 184-198). -/
def GetTransactionDetails {σ : Type} (env : Env σ) (network rpcURL txhash : GoString) :
    Proc σ Unit := do
  let url ← getRPCURL env network rpcURL
  let client ← GetClient env url
  let r ← callC (.GetTransactionByHash txhash) (client.GetTransactionByHash txhash)
  match r with
  | .error err => logFatalf "Cannot get transaction details from the network: %v" [.err err]
  | .ok (tx, isPending) =>
    if env.verbose then
      logPrintln [.str (goStr "Transaction details:")]
    let text ← marshalJSON env (details.encode tx isPending)
    Println [text]

/-- The Go `GetAddressDetails` (main.go 205-224). -/
def GetAddressDetails {σ : Type} (env : Env σ) (network rpcURL addrHash : GoString) :
    Proc σ Unit := do
  let url ← getRPCURL env network rpcURL
  let client ← GetClient env url
  let r ← callC (.GetBalance addrHash none) (client.GetBalance addrHash none)
  match r with
  | .error err => logFatalf "Cannot get address balance from the network: %v" [.err err]
  | .ok addr =>
    let r ← callC (.GetCode addrHash none) (client.GetCode addrHash none)
    match r with
    | .error err => logFatalf "Cannot get address code from the network: %v" [.err err]
    | .ok code =>
      if env.verbose then
        logPrintln [.str (goStr "Address details:")]
      let mut ad : addressDetails := { Balance := addr, Code := none }
      if code.length > 0 then
        let sc := code
        ad := { ad with Code := some sc }
      let text ← marshalJSON env ad.encode
      Println [text]

/-- The Go `GetSnapshot` (main.go 226-236). -/
def GetSnapshot {σ : Type} (env : Env σ) (network rpcUrl : GoString) : Proc σ Unit := do
  let url ← getRPCURL env network rpcUrl
  let client ← GetClient env url
  let r ← callC .GetSnapshot client.GetSnapshot
  match r with
  | .error err => logFatalf "Cannot get snapshot from the network: %v" [.err err]
  | .ok s =>
    if env.verbose then
      logPrintln [.str (goStr "Snapshot details:")]
    let text ← marshalJSON env s.json
    Println [text]

/-- The slice expression `s[n:]` of Go on a string: it panics when `n` is past
the end. -/
def sliceFrom {σ : Type} (s : GoString) (n : Nat) : Proc σ GoString :=
  if n ≤ s.length then pure (s.drop n) else goPanic

/-- The `for ... range compileData` loop of `BuildSol` (main.go 255-266). -/
def BuildSol.loop {σ : Type} (env : Env σ) : List (GoString × Contract) → Proc σ Unit
  | [] => pure ()
  | (contractName, v) :: rest => do
    let filename ← sliceFrom contractName 8
    let err ← callE (.WriteFile (filename ++ goStr ".bin") v.RuntimeCode 0o600)
      (env.WriteFile (filename ++ goStr ".bin") v.RuntimeCode 0o600)
    if let some err := err then
      logFatalf "Cannot write the bin file: %v" [.err err]
    let abi ← marshalJSON env v.Info.AbiDefinition
    let err ← callE (.WriteFile (filename ++ goStr ".abi") abi 0o600)
      (env.WriteFile (filename ++ goStr ".abi") abi 0o600)
    if let some err := err then
      logFatalf "Cannot write the abi file: %v" [.err err]
    Println [goStr "Contract has been successfully compiled and the following files have been written:",
      filename ++ goStr ".bin,", filename ++ goStr ".abi"]
    BuildSol.loop env rest

/-- The Go `BuildSol` (main.go 238-267). -/
def BuildSol {σ : Type} (env : Env σ) (filename : GoString) : Proc σ Unit := do
  let r ← callC (.ReadFile filename) (env.ReadFile filename)
  match r with
  | .error err => logFatalf "Failed to read file %q: %v" [.str filename, .err err]
  | .ok b =>
    let str := b
    if env.verbose then
      logPrintln [.str (goStr "Building Sol:"), .str str]
    let r ← callC (.CompileSolidityString str) (env.CompileSolidityString str)
    match r with
    | .error err => logFatalf "Failed to compile %q: %v" [.str filename, .err err]
    | .ok compileData =>
      if env.verbose then
        let text ← marshalJSON env compileData.json
        logPrintln [.str (goStr "Compiled Sol Details:"), .str text]
      BuildSol.loop env compileData.entries

/-- The Go `os.IsNotExist(err)`. -/
def IsNotExist : Option GoError → Bool
  | some e => e.notExist
  | none => false

/-- The Go `DeploySol` (main.go 269-288). -/
def DeploySol {σ : Type} (env : Env σ) (network rpcUrl privateKey contractName : GoString) :
    Proc σ Unit := do
  let url ← getRPCURL env network rpcUrl
  let client ← GetClient env url
  let err ← callE (.Stat contractName) (env.Stat contractName)
  if IsNotExist err then
    logFatalf "Cannot find the bin file: %v" (err.toList.map Arg.err)
  let r ← callC (.ReadFile contractName) (env.ReadFile contractName)
  match r with
  | .error err => logFatalf "Cannot read the bin file: %v" [.err err]
  | .ok dat =>
    let r ← callC (.DeployContract privateKey dat) (client.DeployContract privateKey dat)
    match r with
    | .error err => logFatalf "Cannot deploy the contract: %v" [.err err]
    | .ok tx =>
      let r ← callC (.WaitForReceipt tx) (client.WaitForReceipt tx)
      match r with
      | .error err => logFatalf "Cannot get the receipt: %v" [.err err]
      | .ok receipt =>
        Println [goStr "Contract has been successfully deployed with transaction:", tx.HashHex]
        Println [goStr "Contract address is:", receipt.ContractAddressHex]

/-! ## Reading a trace -/

/-- The five read operations of the RPC client. -/
def Call.isRPC : Call → Bool
  | .GetBlockByNumber _ => true
  | .GetTransactionByHash _ => true
  | .GetBalance _ _ => true
  | .GetCode _ _ => true
  | .GetSnapshot => true
  | _ => false

/-- The two operations of a deployment: `DeployContract`, `WaitForReceipt`. -/
def Call.isDeploy : Call → Bool
  | .DeployContract _ _ => true
  | .WaitForReceipt _ => true
  | _ => false

/-- The event writes to standard output. -/
def Event.isStdout : Event → Bool
  | .stdout _ => true
  | _ => false

/-- The event is a line of `log.Println`. -/
def Event.isLog : Event → Bool
  | .log _ => true
  | _ => false

/-- The event is a call of a read operation of the RPC client that returned an
error. -/
def Event.failedRPC : Event → Bool
  | .call c (some _) => c.isRPC
  | _ => false

/-- The event is a call of `DeployContract` or `WaitForReceipt`. -/
def Event.isDeploy : Event → Bool
  | .call c _ => c.isDeploy
  | _ => false

/-- The `WriteFile` calls of a run, in order: path, contents, permissions and
the error returned. -/
def writes : List Event → List (GoString × GoString × Nat × Option GoError)
  | [] => []
  | .call (.WriteFile name data perm) err :: rest => (name, data, perm, err) :: writes rest
  | _ :: rest => writes rest

/-- A run stops at the first failed request: no request of the trace failed, or
the run ended fatally and its trace ends with the failed request and the fatal
message, after events that neither fail nor print. -/
def StopsAtFailure {σ : Type} (r : Res σ Unit) : Prop :=
  (∀ ev ∈ r.trace, ev.failedRPC = false)
  ∨ (r.out = .fatal ∧ ∃ q c e format args,
      r.trace = q ++ [.call c (some e), .fatal format args]
      ∧ ∀ ev ∈ q, ev.failedRPC = false ∧ ev.isStdout = false)

/-! ## A sample world

A world whose state is a file system, a node with fixed answers and a compiler
with a fixed output: the concrete instances below run the commands in it. -/

/-- The quoting of `encoding/json` on a string of letters and digits: the
string between double quotes. -/
def plainQuote (s : GoString) : GoString := goStr "\"" ++ s ++ goStr "\""

/-- A file system: paths and their contents. -/
abbrev Files := List (GoString × GoString)

/-- The error of a failed request. -/
def refused : GoError := ⟨goStr "connection refused", false⟩

/-- The error of the file functions on a path without a file. -/
def missing : GoError := ⟨goStr "no such file or directory", true⟩

/-- A client of a node that answers `GetBalance` and `GetCode` as given. -/
def sampleClient (balance : Except GoError (Option Int)) (code : Except GoError GoString) :
    Client Files where
  GetBlockByNumber := fun _ fs => (.ok ⟨⟨.ok (.obj [])⟩⟩, fs)
  GetTransactionByHash := fun _ fs => (.error refused, fs)
  GetBalance := fun _ _ fs => (balance, fs)
  GetCode := fun _ _ fs => (code, fs)
  GetSnapshot := fun fs => (.error refused, fs)
  DeployContract := fun _ _ fs => (.ok ⟨.ok (.obj []), goStr "0x01"⟩, fs)
  WaitForReceipt := fun _ fs => (.ok ⟨goStr "0x02"⟩, fs)

/-- A world with the given client and compiler output. -/
def sampleEnv (verbose : Bool) (client : Client Files) (compiled : CompileData) : Env Files where
  verbose := verbose
  GetClient := fun _ fs => (some client, fs)
  CompileSolidityString := fun _ fs => (.ok compiled, fs)
  Sscan := fun _ => (0, none)
  Stat := fun name fs => (if fs.any (fun f => f.1 == name) then none else some missing, fs)
  ReadFile := fun name fs =>
    match fs.find? (fun f => f.1 == name) with
    | some f => (.ok f.2, fs)
    | none => (.error missing, fs)
  WriteFile := fun name data _ fs => (none, (name, data) :: fs.filter (fun f => f.1 != name))
  quote := plainQuote

/-- A contract with runtime code `6080` and an empty ABI. -/
def sampleContract : Contract := ⟨goStr "6080", ⟨.ok (.arr [])⟩⟩

/-- A compiler output with one contract, under the given name. -/
def oneContract (name : GoString) : CompileData := ⟨[(name, sampleContract)], .ok (.obj [])⟩

/-- A compiler output without contracts. -/
def noContracts : CompileData := ⟨[], .ok (.obj [])⟩

/-! ## Stepping lemmas -/

@[simp] theorem pure_run {σ α : Type} (a : α) (s : σ) :
    (Pure.pure a : Proc σ α) s = ⟨.ret a, s, []⟩ := rfl

@[simp] theorem bind_run {σ α β : Type} (m : Proc σ α) (f : α → Proc σ β) (s : σ) :
    (m >>= f) s = match m s with
      | ⟨.ret a, s1, t1⟩ => ⟨(f a s1).out, (f a s1).ext, t1 ++ (f a s1).trace⟩
      | ⟨.fatal, s1, t1⟩ => ⟨.fatal, s1, t1⟩
      | ⟨.panic, s1, t1⟩ => ⟨.panic, s1, t1⟩ := rfl

@[simp] theorem logFatalf_run {σ : Type} (format : String) (args : List Arg) (s : σ) :
    (logFatalf format args : Proc σ Unit) s = ⟨.fatal, s, [.fatal format args]⟩ := rfl

@[simp] theorem logPrintln_run {σ : Type} (args : List Arg) (s : σ) :
    (logPrintln args : Proc σ Unit) s = ⟨.ret (), s, [.log args]⟩ := rfl

@[simp] theorem Println_run {σ : Type} (args : List GoString) (s : σ) :
    (Println args : Proc σ Unit) s
      = ⟨.ret (), s, [.stdout ((goStr " ").intercalate args ++ goStr "\n")]⟩ := rfl

@[simp] theorem intercalate_one (sep x : GoString) : sep.intercalate [x] = x := by
  simp [List.intercalate]

@[simp] theorem goPanic_run {σ α : Type} (s : σ) :
    (goPanic : Proc σ α) s = ⟨.panic, s, []⟩ := rfl

@[simp] theorem callC_run {σ α : Type} (c : Call) (f : σ → Except GoError α × σ) (s : σ) :
    callC c f s = ⟨.ret (f s).1, (f s).2, [.call c (errorOf (f s).1)]⟩ := rfl

@[simp] theorem callE_run {σ : Type} (c : Call) (f : σ → Option GoError × σ) (s : σ) :
    callE c f s = ⟨.ret (f s).1, (f s).2, [.call c (f s).1]⟩ := rfl

theorem GetClient_some {σ : Type} (env : Env σ) (url : GoString) (s s1 : σ) (client : Client σ)
    (h : env.GetClient url s = (some client, s1)) :
    GetClient env url s = ⟨.ret client, s1, [.call (.GetClient url) none]⟩ := by
  simp [GetClient, h]

theorem GetClient_none {σ : Type} (env : Env σ) (url : GoString) (s s1 : σ)
    (h : env.GetClient url s = (none, s1)) :
    GetClient env url s = ⟨.fatal, s1, [.call (.GetClient url) none]⟩ := by
  simp [GetClient, h]

/-! ## Network resolution -/

/-- The run of `getRPCURL` when both a URL and a name are given: the fatal
message and nothing else. -/
theorem getRPCURL_both {σ : Type} (env : Env σ) (network rpcURL : GoString) (s : σ)
    (hu : rpcURL ≠ goStr "") (hn : network ≠ goStr "") :
    getRPCURL env network rpcURL s
      = ⟨.fatal, s, [.fatal "Cannot set both rpcURL %q and network %q"
          [.str rpcURL, .str network]]⟩ := by
  simp [getRPCURL, hu, hn]

/-- C1: with an empty RPC URL, each of the five recognized network names
resolves to its entry of the table, and `getRPCURL` returns (no fatal end),
for either value of `verbose`. -/
theorem getRPCURL_recognized {σ : Type} (env : Env σ) (s : σ) :
    (getRPCURL env (goStr "testnet") (goStr "") s).out
        = .ret (goStr "https://testnet-rpc.gochain.io")
    ∧ (getRPCURL env (goStr "mainnet") (goStr "") s).out
        = .ret (goStr "https://rpc.gochain.io")
    ∧ (getRPCURL env (goStr "localhost") (goStr "") s).out
        = .ret (goStr "http://localhost:8545")
    ∧ (getRPCURL env (goStr "ethereum") (goStr "") s).out
        = .ret (goStr "https://main-rpc.linkpool.io")
    ∧ (getRPCURL env (goStr "ropsten") (goStr "") s).out
        = .ret (goStr "https://ropsten-rpc.linkpool.io") := by
  cases hv : env.verbose <;> simp +decide [getRPCURL, hv]

/-- C2: when both the RPC URL and the network name are non-empty, each of the
five commands that resolve a network ends fatally with the message of
`getRPCURL` as its whole trace: `GetClient` is not invoked, no collaborator is
called, and the outside world is left as it was. -/
theorem both_set_is_fatal {σ : Type} (env : Env σ)
    (network rpcURL arg privateKey : GoString) (s : σ)
    (hu : rpcURL ≠ goStr "") (hn : network ≠ goStr "") :
    let stop : Res σ Unit := ⟨.fatal, s, [.fatal "Cannot set both rpcURL %q and network %q"
          [.str rpcURL, .str network]]⟩
    GetBlockDetails env network rpcURL arg s = stop
    ∧ GetTransactionDetails env network rpcURL arg s = stop
    ∧ GetAddressDetails env network rpcURL arg s = stop
    ∧ GetSnapshot env network rpcURL s = stop
    ∧ DeploySol env network rpcURL privateKey arg s = stop := by
  have h := getRPCURL_both env network rpcURL s hu hn
  refine ⟨?_, ?_, ?_, ?_, ?_⟩
  · simp [GetBlockDetails, h]
  · simp [GetTransactionDetails, h]
  · simp [GetAddressDetails, h]
  · simp [GetSnapshot, h]
  · simp [DeploySol, h]

/-- C3: with an empty RPC URL, a network name that is none of the five
recognized names (the empty name included) makes `getRPCURL` end the process
fatally, with the message `Unrecognized network:`; no URL is returned. -/
theorem getRPCURL_unrecognized {σ : Type} (env : Env σ) (network : GoString) (s : σ)
    (h1 : network ≠ goStr "testnet") (h2 : network ≠ goStr "mainnet")
    (h3 : network ≠ goStr "localhost") (h4 : network ≠ goStr "ethereum")
    (h5 : network ≠ goStr "ropsten") :
    getRPCURL env network (goStr "") s
      = ⟨.fatal, s, [.fatal "" [.str (goStr "Unrecognized network:"), .str network]]⟩ := by
  simp [getRPCURL, h1, h2, h3, h4, h5]

/-- C4: with an empty network name, a non-empty RPC URL is returned as it was
given, with no fatal end; the only thing `getRPCURL` does besides is the
`RPC URL:` log line when `verbose` is set. -/
theorem getRPCURL_direct {σ : Type} (env : Env σ) (u : GoString) (s : σ) (hu : u ≠ goStr "") :
    (getRPCURL env (goStr "") u s).out = .ret u
    ∧ (getRPCURL env (goStr "") u s).trace
        = if env.verbose then [.log [.str (goStr "RPC URL:"), .str u]] else [] := by
  cases hv : env.verbose <;> simp [getRPCURL, hu, hv]

/-- The concrete instance of C2: `--network testnet` together with
`--rpc-url http://localhost:8545`. -/
theorem both_set_is_fatal_witness :
    goStr "http://localhost:8545" ≠ goStr "" ∧ goStr "testnet" ≠ goStr ""
    ∧ GetSnapshot (sampleEnv true (sampleClient (.ok (some 5)) (.ok [])) noContracts)
        (goStr "testnet") (goStr "http://localhost:8545") []
      = ⟨.fatal, [], [.fatal "Cannot set both rpcURL %q and network %q"
          [.str (goStr "http://localhost:8545"), .str (goStr "testnet")]]⟩ :=
  ⟨by decide, by decide,
    (both_set_is_fatal (sampleEnv true (sampleClient (.ok (some 5)) (.ok [])) noContracts)
      (goStr "testnet") (goStr "http://localhost:8545") (goStr "") (goStr "") []
      (by decide) (by decide)).2.2.2.1⟩

/-- The concrete instance of C3: the empty network name. -/
theorem getRPCURL_unrecognized_witness :
    getRPCURL (sampleEnv true (sampleClient (.ok (some 5)) (.ok [])) noContracts)
        (goStr "") (goStr "") []
      = ⟨.fatal, [], [.fatal "" [.str (goStr "Unrecognized network:"), .str (goStr "")]]⟩ :=
  getRPCURL_unrecognized _ (goStr "") []
    (by decide) (by decide) (by decide) (by decide) (by decide)

/-- The concrete instance of C4: `--rpc-url http://localhost:8545` alone. -/
theorem getRPCURL_direct_witness :
    (getRPCURL (sampleEnv false (sampleClient (.ok (some 5)) (.ok [])) noContracts)
        (goStr "") (goStr "http://localhost:8545") []).out
      = .ret (goStr "http://localhost:8545") :=
  (getRPCURL_direct _ (goStr "http://localhost:8545") [] (by decide)).1

/-- The event of a `log.Println` line is no failed call and writes nothing to
standard output. -/
theorem isLog_quiet (ev : Event) (h : ev.isLog = true) :
    ev.failedRPC = false ∧ ev.isStdout = false ∧ ev.isDeploy = false := by
  cases ev <;> simp_all [Event.isLog, Event.failedRPC, Event.isStdout, Event.isDeploy]

/-- The runs of `getRPCURL`, by projections: the outside world is untouched;
the run returns after log lines only, or ends fatally after its message. -/
theorem getRPCURL_shape {σ : Type} (env : Env σ) (network rpcURL : GoString) (s : σ) :
    (getRPCURL env network rpcURL s).ext = s
    ∧ (((∃ url, (getRPCURL env network rpcURL s).out = .ret url)
          ∧ ∀ ev ∈ (getRPCURL env network rpcURL s).trace, ev.isLog = true)
       ∨ ((getRPCURL env network rpcURL s).out = .fatal
          ∧ ∃ format args, (getRPCURL env network rpcURL s).trace = [.fatal format args])) := by
  by_cases hu : rpcURL = goStr ""
  · by_cases h1 : network = goStr "testnet"
    · cases hv : env.verbose <;> simp [getRPCURL, hu, eq_true h1, hv, Event.isLog]
    by_cases h2 : network = goStr "mainnet"
    · cases hv : env.verbose <;> simp [getRPCURL, hu, h1, eq_true h2, hv, Event.isLog]
    by_cases h3 : network = goStr "localhost"
    · cases hv : env.verbose <;> simp [getRPCURL, hu, h1, h2, eq_true h3, hv, Event.isLog]
    by_cases h4 : network = goStr "ethereum"
    · cases hv : env.verbose <;> simp [getRPCURL, hu, h1, h2, h3, eq_true h4, hv, Event.isLog]
    by_cases h5 : network = goStr "ropsten"
    · cases hv : env.verbose <;>
        simp [getRPCURL, hu, h1, h2, h3, h4, eq_true h5, hv, Event.isLog]
    · simp [getRPCURL, hu, h1, h2, h3, h4, h5]
  · by_cases hn : network = goStr ""
    · cases hv : env.verbose <;> simp [getRPCURL, hu, eq_true hn, hv, Event.isLog]
    · simp [getRPCURL, hu, hn]

/-- The runs of `getRPCURL`: it returns a URL after log lines only, or it ends
fatally after its message; it never touches the outside world. -/
theorem getRPCURL_cases {σ : Type} (env : Env σ) (network rpcURL : GoString) (s : σ) :
    (∃ url t, getRPCURL env network rpcURL s = ⟨.ret url, s, t⟩ ∧ ∀ ev ∈ t, ev.isLog = true)
    ∨ (∃ format args, getRPCURL env network rpcURL s = ⟨.fatal, s, [.fatal format args]⟩) := by
  have h := getRPCURL_shape env network rpcURL s
  rcases hr : getRPCURL env network rpcURL s with ⟨o, e, t⟩
  rw [hr] at h
  obtain ⟨he, (⟨⟨url, ho⟩, hq⟩ | ⟨ho, format, args, ht⟩)⟩ := h
  · left; exact ⟨url, t, by simp_all, hq⟩
  · right; exact ⟨format, args, by simp_all⟩

/-! ## Blocks -/

/-- C5: `parseBigInt("")` is the nil block number with no error; and whenever
the network resolves to `url` and `GetClient` gives a client, `GetBlockDetails`
with an empty block argument goes from `GetClient` straight to
`GetBlockByNumber(nil)` on that client: no fatal end at parsing. -/
theorem GetBlockDetails_latest {σ : Type} (env : Env σ) (network rpcURL url : GoString)
    (client : Client σ) (s s1 : σ)
    (hres : (getRPCURL env network rpcURL s).out = .ret url)
    (hcl : env.GetClient url s = (some client, s1)) :
    parseBigInt env (goStr "") = (none, none)
    ∧ ∃ post, (GetBlockDetails env network rpcURL (goStr "") s).trace
        = (getRPCURL env network rpcURL s).trace
          ++ .call (.GetClient url) none
          :: .call (.GetBlockByNumber none) (errorOf (client.GetBlockByNumber none s1).1)
          :: post := by
  have hp : parseBigInt env (goStr "") = (none, none) := by simp [parseBigInt]
  refine ⟨hp, ?_⟩
  have hext := (getRPCURL_shape env network rpcURL s).1
  rcases hr : getRPCURL env network rpcURL s with ⟨o, e, t0⟩
  rw [hr] at hres hext
  simp only at hres hext
  subst hres hext
  have hc := GetClient_some env url e s1 client hcl
  rcases hb : client.GetBlockByNumber none s1 with ⟨_ | block, s2⟩
  · exact ⟨_, by simp [GetBlockDetails, hr, hc, hp, hb, errorOf]; rfl⟩
  · exact ⟨_, by simp [GetBlockDetails, hr, hc, hp, hb, errorOf]; rfl⟩

/-- The concrete instance of C5: `block ""` on `testnet`. -/
theorem GetBlockDetails_latest_witness :
    (getRPCURL (sampleEnv false (sampleClient (.ok (some 5)) (.ok [])) noContracts)
        (goStr "testnet") (goStr "") []).out = .ret (goStr "https://testnet-rpc.gochain.io")
    ∧ parseBigInt (sampleEnv false (sampleClient (.ok (some 5)) (.ok [])) noContracts)
        (goStr "") = (none, none)
    ∧ ∃ post, (GetBlockDetails (sampleEnv false (sampleClient (.ok (some 5)) (.ok []))
          noContracts) (goStr "testnet") (goStr "") (goStr "") []).trace
        = (getRPCURL (sampleEnv false (sampleClient (.ok (some 5)) (.ok [])) noContracts)
            (goStr "testnet") (goStr "") []).trace
          ++ .call (.GetClient (goStr "https://testnet-rpc.gochain.io")) none
          :: .call (.GetBlockByNumber none) none
          :: post :=
  ⟨rfl, GetBlockDetails_latest
    (sampleEnv false (sampleClient (.ok (some 5)) (.ok [])) noContracts)
    (goStr "testnet") (goStr "") (goStr "https://testnet-rpc.gochain.io")
    (sampleClient (.ok (some 5)) (.ok [])) [] [] rfl rfl⟩

/-! ## Addresses -/

/-- The run of `GetAddressDetails` when the network resolves, a client is
obtained and both requests succeed. -/
theorem GetAddressDetails_ok {σ : Type} (env : Env σ) (network rpcURL addrHash url : GoString)
    (client : Client σ) (s s1 s2 s3 : σ) (balance : Option Int) (code : GoString)
    (hres : (getRPCURL env network rpcURL s).out = .ret url)
    (hcl : env.GetClient url s = (some client, s1))
    (hbal : client.GetBalance addrHash none s1 = (.ok balance, s2))
    (hcode : client.GetCode addrHash none s2 = (.ok code, s3)) :
    GetAddressDetails env network rpcURL addrHash s
      = ⟨.ret (), s3, (getRPCURL env network rpcURL s).trace
          ++ [.call (.GetClient url) none, .call (.GetBalance addrHash none) none,
              .call (.GetCode addrHash none) none]
          ++ (if env.verbose then [.log [.str (goStr "Address details:")]] else [])
          ++ [.stdout ((MarshalIndent env (addressDetails.encode
                ⟨balance, if code.length > 0 then some code else none⟩)).1 ++ goStr "\n")]⟩ := by
  have hext := (getRPCURL_shape env network rpcURL s).1
  rcases hr : getRPCURL env network rpcURL s with ⟨o, e, t0⟩
  rw [hr] at hres hext
  simp only at hres hext
  subst hres hext
  have hc := GetClient_some env url e s1 client hcl
  by_cases hlen : code.length > 0 <;> cases hv : env.verbose <;>
    simp [GetAddressDetails, hr, hc, hbal, hcode, errorOf, hlen, hv, marshalJSON,
      MarshalIndent, addressDetails.encode]

/-- The events before the printed line of a successful `GetAddressDetails`
write nothing to standard output. -/
theorem address_preamble_silent {σ : Type} (env : Env σ) (network rpcURL addrHash url : GoString)
    (s : σ) (hres : (getRPCURL env network rpcURL s).out = .ret url) :
    ∀ ev ∈ (getRPCURL env network rpcURL s).trace
          ++ [.call (.GetClient url) none, .call (.GetBalance addrHash none) none,
              .call (.GetCode addrHash none) none]
          ++ (if env.verbose then [.log [.str (goStr "Address details:")]] else []),
      ev.isStdout = false := by
  intro ev hev
  rcases (getRPCURL_shape env network rpcURL s).2 with ⟨_, hq⟩ | ⟨ho, _⟩
  · simp only [List.mem_append] at hev
    rcases hev with (hev | hev) | hev
    · exact (isLog_quiet ev (hq ev hev)).2.1
    · simp at hev
      rcases hev with rfl | rfl | rfl <;> rfl
    · cases hv : env.verbose <;> simp [hv] at hev
      subst hev; rfl
  · rw [ho] at hres; cases hres

/-- C6 (as the code has it): when `GetBalance` and `GetCode` succeed and the
code is empty, `GetAddressDetails` marshals the value with `Code` nil and
prints, as its only line on standard output, a JSON object with the two
members `Balance` and `Code`; the member `Code` is there, with the value
`null`. -/
theorem GetAddressDetails_empty_code {σ : Type} (env : Env σ)
    (network rpcURL addrHash url : GoString) (client : Client σ) (s s1 s2 s3 : σ)
    (balance : Option Int)
    (hres : (getRPCURL env network rpcURL s).out = .ret url)
    (hcl : env.GetClient url s = (some client, s1))
    (hbal : client.GetBalance addrHash none s1 = (.ok balance, s2))
    (hcode : client.GetCode addrHash none s2 = (.ok [], s3)) :
    ∃ pre, GetAddressDetails env network rpcURL addrHash s
        = ⟨.ret (), s3, pre ++ [.stdout (render env.quote 0
            (.obj [(goStr "Balance", encodeBigInt balance), (goStr "Code", .null)])
            ++ goStr "\n")]⟩
      ∧ (∀ ev ∈ pre, ev.isStdout = false)
      ∧ addressDetails.encode ⟨balance, none⟩
          = .ok (.obj [(goStr "Balance", encodeBigInt balance), (goStr "Code", .null)])
      ∧ JSON.keys (.obj [(goStr "Balance", encodeBigInt balance), (goStr "Code", .null)])
          = [goStr "Balance", goStr "Code"]
      ∧ render env.quote 0
            (.obj [(goStr "Balance", encodeBigInt balance), (goStr "Code", .null)])
          = goStr "\x7b\n" ++ goStr "  " ++ env.quote (goStr "Balance") ++ goStr ": "
              ++ render env.quote 1 (encodeBigInt balance) ++ goStr ",\n" ++ goStr "  "
              ++ env.quote (goStr "Code") ++ goStr ": " ++ goStr "null" ++ goStr "\n"
              ++ goStr "\x7d" := by
  refine ⟨_, ?_, address_preamble_silent env network rpcURL addrHash url s hres, rfl, rfl, ?_⟩
  · rw [GetAddressDetails_ok env network rpcURL addrHash url client s s1 s2 s3 balance []
      hres hcl hbal hcode]
    simp [MarshalIndent, addressDetails.encode, encodeStringPtr]
  · simp [render, renderMembers, indentation]

/-- C7: when `GetBalance` and `GetCode` succeed and the code is not empty,
`GetAddressDetails` prints, as its only line on standard output, the
marshalling of the value whose `Balance` is the balance returned and whose
`Code` is the string of the code bytes; in the JSON object the member `Code`
is that string. -/
theorem GetAddressDetails_with_code {σ : Type} (env : Env σ)
    (network rpcURL addrHash url : GoString) (client : Client σ) (s s1 s2 s3 : σ)
    (balance : Option Int) (code : GoString)
    (hres : (getRPCURL env network rpcURL s).out = .ret url)
    (hcl : env.GetClient url s = (some client, s1))
    (hbal : client.GetBalance addrHash none s1 = (.ok balance, s2))
    (hcode : client.GetCode addrHash none s2 = (.ok code, s3))
    (hne : code ≠ []) :
    ∃ pre, GetAddressDetails env network rpcURL addrHash s
        = ⟨.ret (), s3, pre ++ [.stdout ((MarshalIndent env
            (addressDetails.encode { Balance := balance, Code := some code })).1
            ++ goStr "\n")]⟩
      ∧ (∀ ev ∈ pre, ev.isStdout = false)
      ∧ MarshalIndent env (addressDetails.encode { Balance := balance, Code := some code })
          = (render env.quote 0
              (.obj [(goStr "Balance", encodeBigInt balance), (goStr "Code", .str code)]), none)
      ∧ JSON.member (goStr "Code")
          (.obj [(goStr "Balance", encodeBigInt balance), (goStr "Code", .str code)])
          = some (.str code)
      ∧ JSON.member (goStr "Balance")
          (.obj [(goStr "Balance", encodeBigInt balance), (goStr "Code", .str code)])
          = some (encodeBigInt balance) := by
  refine ⟨_, ?_, address_preamble_silent env network rpcURL addrHash url s hres, rfl, rfl, rfl⟩
  rw [GetAddressDetails_ok env network rpcURL addrHash url client s s1 s2 s3 balance code
      hres hcl hbal hcode]
  have hlen : code.length > 0 := List.length_pos.mpr hne
  simp [hlen]

/-- C6, the claim as written fails: on `testnet`, for an address with balance
5 and no code, `GetAddressDetails` prints an object in which the key `Code` is
present, with the value `null`. -/
theorem GetAddressDetails_prints_null_code :
    GetAddressDetails (sampleEnv false (sampleClient (.ok (some 5)) (.ok [])) noContracts)
        (goStr "testnet") (goStr "") (goStr "0x01") []
      = ⟨.ret (), [],
          [.call (.GetClient (goStr "https://testnet-rpc.gochain.io")) none,
           .call (.GetBalance (goStr "0x01") none) none,
           .call (.GetCode (goStr "0x01") none) none,
           .stdout (goStr "\x7b\n  \"Balance\": 5,\n  \"Code\": null\n\x7d\n")]⟩
    ∧ goStr "Code" ∈ JSON.keys (.obj [(goStr "Balance", encodeBigInt (some 5)),
        (goStr "Code", encodeStringPtr none)])
    ∧ render plainQuote 0 (.obj [(goStr "Balance", encodeBigInt (some 5)),
        (goStr "Code", encodeStringPtr none)]) ++ goStr "\n"
      = goStr "\x7b\n  \"Balance\": 5,\n  \"Code\": null\n\x7d\n" := by
  refine ⟨rfl, ?_, rfl⟩
  simp [JSON.keys]

/-- The concrete instance of C6 as the code has it: balance 5, no code. -/
theorem GetAddressDetails_empty_code_witness :
    ∃ pre, GetAddressDetails
          (sampleEnv false (sampleClient (.ok (some 5)) (.ok [])) noContracts)
          (goStr "testnet") (goStr "") (goStr "0x01") []
        = ⟨.ret (), [], pre ++ [.stdout (render plainQuote 0
            (.obj [(goStr "Balance", encodeBigInt (some 5)), (goStr "Code", .null)])
            ++ goStr "\n")]⟩ :=
  (GetAddressDetails_empty_code
    (sampleEnv false (sampleClient (.ok (some 5)) (.ok [])) noContracts)
    (goStr "testnet") (goStr "") (goStr "0x01") (goStr "https://testnet-rpc.gochain.io")
    (sampleClient (.ok (some 5)) (.ok [])) [] [] [] [] (some 5) rfl rfl rfl rfl).imp
    (fun _ h => h.1)

/-- The concrete instance of C7: balance 5, code `6080`. -/
theorem GetAddressDetails_with_code_witness :
    goStr "6080" ≠ []
    ∧ ∃ pre, GetAddressDetails
          (sampleEnv false (sampleClient (.ok (some 5)) (.ok (goStr "6080"))) noContracts)
          (goStr "testnet") (goStr "") (goStr "0x01") []
        = ⟨.ret (), [], pre ++ [.stdout (goStr "\x7b\n  \"Balance\": 5,\n  \"Code\": \"6080\"\n\x7d\n")]⟩ :=
  ⟨by decide, (GetAddressDetails_with_code
    (sampleEnv false (sampleClient (.ok (some 5)) (.ok (goStr "6080"))) noContracts)
    (goStr "testnet") (goStr "") (goStr "0x01") (goStr "https://testnet-rpc.gochain.io")
    (sampleClient (.ok (some 5)) (.ok (goStr "6080"))) [] [] [] [] (some 5) (goStr "6080")
    rfl rfl rfl rfl (by decide)).imp (fun _ h => h.1)⟩

/-! ## Failed requests -/

@[simp] theorem failedRPC_call_none (c : Call) : (Event.call c none).failedRPC = false := rfl
@[simp] theorem failedRPC_call_some (c : Call) (e : GoError) :
    (Event.call c (some e)).failedRPC = c.isRPC := rfl
@[simp] theorem failedRPC_stdout (t : GoString) : (Event.stdout t).failedRPC = false := rfl
@[simp] theorem failedRPC_log (a : List Arg) : (Event.log a).failedRPC = false := rfl
@[simp] theorem failedRPC_fatal (f : String) (a : List Arg) :
    (Event.fatal f a).failedRPC = false := rfl
@[simp] theorem isStdout_call (c : Call) (e : Option GoError) :
    (Event.call c e).isStdout = false := rfl
@[simp] theorem isStdout_stdout (t : GoString) : (Event.stdout t).isStdout = true := rfl
@[simp] theorem isStdout_log (a : List Arg) : (Event.log a).isStdout = false := rfl
@[simp] theorem isStdout_fatal (f : String) (a : List Arg) :
    (Event.fatal f a).isStdout = false := rfl

theorem log_all_quiet (t : List Event) (h : ∀ ev ∈ t, ev.isLog = true) :
    (∀ ev ∈ t, ev.failedRPC = false) ∧ (∀ ev ∈ t, ev.isStdout = false)
    ∧ (∀ ev ∈ t, ev.isDeploy = false) :=
  ⟨fun ev hev => (isLog_quiet ev (h ev hev)).1, fun ev hev => (isLog_quiet ev (h ev hev)).2.1,
    fun ev hev => (isLog_quiet ev (h ev hev)).2.2⟩

theorem GetSnapshot_stops {σ : Type} (env : Env σ) (network rpcURL : GoString) (s : σ) :
    StopsAtFailure (GetSnapshot env network rpcURL s) := by
  rcases getRPCURL_cases env network rpcURL s with ⟨url, t0, hr, hq⟩ | ⟨format, args, hr⟩
  · obtain ⟨hq1, hq2, -⟩ := log_all_quiet t0 hq
    rcases hcl : env.GetClient url s with ⟨_ | client, s1⟩
    · left
      simpa [GetSnapshot, hr, GetClient_none env url s s1 hcl, or_imp, forall_and] using hq1
    · have hc := GetClient_some env url s s1 client hcl
      rcases hb : client.GetSnapshot s1 with ⟨err | v, s2⟩
      · right
        refine ⟨?_, t0 ++ [.call (.GetClient url) none], .GetSnapshot, err,
          "Cannot get snapshot from the network: %v", [.err err], ?_, ?_⟩
        · simp [GetSnapshot, hr, hc, hb, errorOf]
        · simp [GetSnapshot, hr, hc, hb, errorOf]
        · simpa [or_imp, forall_and] using ⟨hq1, hq2⟩
      · left
        rcases hj : v.json with e | doc <;> cases hv : env.verbose <;>
        simpa [GetSnapshot, hr, hc, hb, errorOf, marshalJSON, MarshalIndent, hj, hv, or_imp, forall_and] using hq1
  · left
    simp [GetSnapshot, hr, StopsAtFailure]

theorem GetTransactionDetails_stops {σ : Type} (env : Env σ) (network rpcURL txhash : GoString)
    (s : σ) : StopsAtFailure (GetTransactionDetails env network rpcURL txhash s) := by
  rcases getRPCURL_cases env network rpcURL s with ⟨url, t0, hr, hq⟩ | ⟨format, args, hr⟩
  · obtain ⟨hq1, hq2, -⟩ := log_all_quiet t0 hq
    rcases hcl : env.GetClient url s with ⟨_ | client, s1⟩
    · left
      simpa [GetTransactionDetails, hr, GetClient_none env url s s1 hcl, or_imp, forall_and]
        using hq1
    · have hc := GetClient_some env url s s1 client hcl
      rcases hb : client.GetTransactionByHash txhash s1 with ⟨err | ⟨tx, isPending⟩, s2⟩
      · right
        refine ⟨?_, t0 ++ [.call (.GetClient url) none], .GetTransactionByHash txhash, err,
          "Cannot get transaction details from the network: %v", [.err err], ?_, ?_⟩
        · simp [GetTransactionDetails, hr, hc, hb, errorOf]
        · simp [GetTransactionDetails, hr, hc, hb, errorOf]
        · simpa [or_imp, forall_and] using ⟨hq1, hq2⟩
      · left
        rcases hj : tx.json with e | doc <;> cases hv : env.verbose <;>
        simpa [GetTransactionDetails, hr, hc, hb, errorOf, marshalJSON, MarshalIndent,
          details.encode, hj, hv, or_imp, forall_and] using hq1
  · left
    simp [GetTransactionDetails, hr, StopsAtFailure]

theorem GetBlockDetails_stops {σ : Type} (env : Env σ) (network rpcURL blockNumber : GoString)
    (s : σ) : StopsAtFailure (GetBlockDetails env network rpcURL blockNumber s) := by
  rcases getRPCURL_cases env network rpcURL s with ⟨url, t0, hr, hq⟩ | ⟨format, args, hr⟩
  · obtain ⟨hq1, hq2, -⟩ := log_all_quiet t0 hq
    rcases hcl : env.GetClient url s with ⟨_ | client, s1⟩
    · left
      simpa [GetBlockDetails, hr, GetClient_none env url s s1 hcl, or_imp, forall_and]
        using hq1
    · have hc := GetClient_some env url s s1 client hcl
      rcases hp : parseBigInt env blockNumber with ⟨blockN, _ | perr⟩
      · rcases hb : client.GetBlockByNumber blockN s1 with ⟨err | block, s2⟩
        · right
          refine ⟨?_, t0 ++ [.call (.GetClient url) none], .GetBlockByNumber blockN, err,
            "Cannot get block details from the network: %v", [.err err], ?_, ?_⟩
          · simp [GetBlockDetails, hr, hc, hp, hb, errorOf]
          · simp [GetBlockDetails, hr, hc, hp, hb, errorOf]
          · simpa [or_imp, forall_and] using ⟨hq1, hq2⟩
        · left
          rcases hj : block.Header.json with e | doc <;> cases hv : env.verbose <;>
          simpa [GetBlockDetails, hr, hc, hp, hb, errorOf, marshalJSON, MarshalIndent,
            hj, hv, or_imp, forall_and] using hq1
      · left
        simpa [GetBlockDetails, hr, hc, hp, or_imp, forall_and] using hq1
  · left
    simp [GetBlockDetails, hr, StopsAtFailure]

theorem GetAddressDetails_stops {σ : Type} (env : Env σ) (network rpcURL addrHash : GoString)
    (s : σ) : StopsAtFailure (GetAddressDetails env network rpcURL addrHash s) := by
  rcases getRPCURL_cases env network rpcURL s with ⟨url, t0, hr, hq⟩ | ⟨format, args, hr⟩
  · obtain ⟨hq1, hq2, -⟩ := log_all_quiet t0 hq
    rcases hcl : env.GetClient url s with ⟨_ | client, s1⟩
    · left
      simpa [GetAddressDetails, hr, GetClient_none env url s s1 hcl, or_imp, forall_and]
        using hq1
    · have hc := GetClient_some env url s s1 client hcl
      rcases hb : client.GetBalance addrHash none s1 with ⟨err | addr, s2⟩
      · right
        refine ⟨?_, t0 ++ [.call (.GetClient url) none], .GetBalance addrHash none, err,
          "Cannot get address balance from the network: %v", [.err err], ?_, ?_⟩
        · simp [GetAddressDetails, hr, hc, hb, errorOf]
        · simp [GetAddressDetails, hr, hc, hb, errorOf]
        · simpa [or_imp, forall_and] using ⟨hq1, hq2⟩
      · rcases hcode : client.GetCode addrHash none s2 with ⟨err | code, s3⟩
        · right
          refine ⟨?_, t0 ++ [.call (.GetClient url) none, .call (.GetBalance addrHash none) none],
            .GetCode addrHash none, err,
            "Cannot get address code from the network: %v", [.err err], ?_, ?_⟩
          · simp [GetAddressDetails, hr, hc, hb, hcode, errorOf]
          · simp [GetAddressDetails, hr, hc, hb, hcode, errorOf]
          · simpa [or_imp, forall_and] using ⟨hq1, hq2⟩
        · left
          by_cases hlen : code.length > 0 <;> cases hv : env.verbose <;>
          simpa [GetAddressDetails, hr, hc, hb, hcode, errorOf, marshalJSON, MarshalIndent,
            addressDetails.encode, hlen, hv, or_imp, forall_and] using hq1
  · left
    simp [GetAddressDetails, hr, StopsAtFailure]

/-- Where the trace of a run ends with a failed request and a fatal message,
what follows a failed request is that message alone. -/
theorem post_of_failure (q pre post : List Event) (c0 c : Call) (e0 e : GoError)
    (format : String) (args : List Arg)
    (hq : ∀ ev ∈ q, ev.failedRPC = false)
    (h : q ++ [.call c0 (some e0), .fatal format args] = pre ++ .call c (some e) :: post)
    (hc : c.isRPC = true) : post = [.fatal format args] := by
  induction q generalizing pre with
  | nil =>
    match pre, h with
    | [], h => simp at h; exact h.2.symm
    | [_], h => simp at h
    | _ :: _ :: _, h => simp at h
  | cons x q ih =>
    match pre, h with
    | [], h =>
      simp at h
      have := hq x (by simp)
      rw [h.1] at this
      simp [hc] at this
    | y :: pre, h =>
      simp at h
      exact ih pre (fun ev hev => hq ev (by simp [hev])) h.2

/-- What `StopsAtFailure` says about any failed request of the trace. -/
theorem stops_at_failure {σ : Type} (r : Res σ Unit) (h : StopsAtFailure r)
    (pre post : List Event) (c : Call) (e : GoError) (hc : c.isRPC = true)
    (ht : r.trace = pre ++ .call c (some e) :: post) :
    r.out = .fatal ∧ (∃ format args, post = [.fatal format args])
      ∧ ∀ ev ∈ r.trace, ev.isStdout = false := by
  rcases h with h | ⟨ho, q, c0, e0, format, args, hq, hall⟩
  · have := h (.call c (some e)) (by rw [ht]; simp)
    simp [hc] at this
  · refine ⟨ho, ⟨format, args, ?_⟩, ?_⟩
    · exact post_of_failure q pre post c0 c e0 e format args (fun ev hev => (hall ev hev).1)
        (by rw [← hq, ht]) hc
    · rw [hq]
      intro ev hev
      simp at hev
      rcases hev with hev | rfl | rfl
      · exact (hall ev hev).2
      · rfl
      · rfl

/-- C10: in `GetBlockDetails`, `GetTransactionDetails`, `GetAddressDetails` and
`GetSnapshot`, wherever the trace has a request to the RPC client
(`GetBlockByNumber`, `GetTransactionByHash`, `GetBalance`, `GetCode`,
`GetSnapshot`) that returned an error, the run ends fatally, what follows the
failed request in the trace is the fatal message and nothing else (no later
request, no second attempt), and no event of the run writes to standard
output. -/
theorem rpc_error_is_fatal {σ : Type} (env : Env σ) (network rpcURL arg : GoString) (s : σ)
    (pre post : List Event) (c : Call) (e : GoError) (hc : c.isRPC = true) :
    let stops : Res σ Unit → Prop := fun r =>
      r.trace = pre ++ .call c (some e) :: post →
        r.out = .fatal ∧ (∃ format args, post = [.fatal format args])
          ∧ ∀ ev ∈ r.trace, ev.isStdout = false
    stops (GetBlockDetails env network rpcURL arg s)
    ∧ stops (GetTransactionDetails env network rpcURL arg s)
    ∧ stops (GetAddressDetails env network rpcURL arg s)
    ∧ stops (GetSnapshot env network rpcURL s) :=
  ⟨stops_at_failure _ (GetBlockDetails_stops env network rpcURL arg s) pre post c e hc,
   stops_at_failure _ (GetTransactionDetails_stops env network rpcURL arg s) pre post c e hc,
   stops_at_failure _ (GetAddressDetails_stops env network rpcURL arg s) pre post c e hc,
   stops_at_failure _ (GetSnapshot_stops env network rpcURL s) pre post c e hc⟩

@[simp] theorem isDeploy_stdout (t : GoString) : (Event.stdout t).isDeploy = false := rfl
@[simp] theorem isDeploy_log (a : List Arg) : (Event.log a).isDeploy = false := rfl
@[simp] theorem isDeploy_fatal (f : String) (a : List Arg) :
    (Event.fatal f a).isDeploy = false := rfl
@[simp] theorem isDeploy_call (c : Call) (e : Option GoError) :
    (Event.call c e).isDeploy = c.isDeploy := rfl

/-- C9: when `os.Stat` reports that the path names no file (in the state of
the world in which `GetClient` has returned), `DeploySol` ends fatally, whatever the network inputs and the private key; its trace has no
call of `DeployContract` or `WaitForReceipt` and nothing on standard output. -/
theorem DeploySol_missing_file {σ : Type} (env : Env σ)
    (network rpcUrl privateKey contractName : GoString) (s : σ)
    (hmiss : ∀ url client s1, env.GetClient url s = (some client, s1) →
      IsNotExist (env.Stat contractName s1).1 = true) :
    (DeploySol env network rpcUrl privateKey contractName s).out = .fatal
    ∧ ∀ ev ∈ (DeploySol env network rpcUrl privateKey contractName s).trace,
        ev.isDeploy = false ∧ ev.isStdout = false := by
  rcases getRPCURL_cases env network rpcUrl s with ⟨url, t0, hr, hq⟩ | ⟨format, args, hr⟩
  · obtain ⟨-, hq2, hq3⟩ := log_all_quiet t0 hq
    rcases hcl : env.GetClient url s with ⟨_ | client, s1⟩
    · simpa [DeploySol, hr, GetClient_none env url s s1 hcl, or_imp, forall_and, Call.isDeploy]
        using ⟨hq3, hq2⟩
    · have hc := GetClient_some env url s s1 client hcl
      simpa [DeploySol, hr, hc, hmiss url client s1 hcl, or_imp, forall_and, Call.isDeploy]
        using ⟨hq3, hq2⟩
  · simp [DeploySol, hr]

/-! ## Building -/

@[simp] theorem writes_nil : writes [] = [] := rfl
@[simp] theorem writes_write (name data : GoString) (perm : Nat) (err : Option GoError)
    (rest : List Event) :
    writes (.call (.WriteFile name data perm) err :: rest)
      = (name, data, perm, err) :: writes rest := rfl
@[simp] theorem writes_log (a : List Arg) (rest : List Event) :
    writes (.log a :: rest) = writes rest := rfl
@[simp] theorem writes_stdout (t : GoString) (rest : List Event) :
    writes (.stdout t :: rest) = writes rest := rfl
@[simp] theorem writes_read (name : GoString) (err : Option GoError) (rest : List Event) :
    writes (.call (.ReadFile name) err :: rest) = writes rest := rfl
@[simp] theorem writes_compile (src : GoString) (err : Option GoError) (rest : List Event) :
    writes (.call (.CompileSolidityString src) err :: rest) = writes rest := rfl

/-- C8 (as the code has it): for a compiler output with exactly one contract,
whose qualified name `n` has at least 8 bytes, when the marshalling succeeds
and both writes succeed, `BuildSol` returns and its `WriteFile` calls are
exactly two: `n[8:] + ".bin"` with the runtime code and `n[8:] + ".abi"` with
the indented JSON of the ABI definition, both with mode 0600; neither path is
the unstripped name with the extension. -/
theorem BuildSol_one_contract {σ : Type} (env : Env σ) (filename source n : GoString)
    (c : Contract) (mapJSON : Encoded) (abi : JSON) (s s1 s2 : σ)
    (hread : env.ReadFile filename s = (.ok source, s1))
    (hcomp : env.CompileSolidityString source s1 = (.ok ⟨[(n, c)], mapJSON⟩, s2))
    (hmap : env.verbose = true → ∃ doc, mapJSON = .ok doc)
    (hlen : 8 ≤ n.length)
    (habi : c.Info.AbiDefinition = .ok abi)
    (hbin : (env.WriteFile (n.drop 8 ++ goStr ".bin") c.RuntimeCode 0o600 s2).1 = none)
    (hwabi : (env.WriteFile (n.drop 8 ++ goStr ".abi") (render env.quote 0 abi) 0o600
      (env.WriteFile (n.drop 8 ++ goStr ".bin") c.RuntimeCode 0o600 s2).2).1 = none) :
    (BuildSol env filename s).out = .ret ()
    ∧ writes (BuildSol env filename s).trace
        = [(n.drop 8 ++ goStr ".bin", c.RuntimeCode, 0o600, none),
           (n.drop 8 ++ goStr ".abi", render env.quote 0 abi, 0o600, none)]
    ∧ n.drop 8 ++ goStr ".bin" ≠ n ++ goStr ".bin"
    ∧ n.drop 8 ++ goStr ".abi" ≠ n ++ goStr ".abi" := by
  have hne : ∀ ext : GoString, n.drop 8 ++ ext ≠ n ++ ext := by
    intro ext h
    have := congrArg List.length h
    simp at this
    omega
  refine ⟨?_, ?_, hne _, hne _⟩
  · cases hv : env.verbose
    · simp [BuildSol, BuildSol.loop, hread, hcomp, hv, sliceFrom, hlen, hbin, hwabi, habi,
        marshalJSON, MarshalIndent]
    · obtain ⟨doc, hdoc⟩ := hmap hv
      simp [BuildSol, BuildSol.loop, hread, hcomp, hv, sliceFrom, hlen, hbin, hwabi, habi,
        marshalJSON, MarshalIndent, hdoc]
  · cases hv : env.verbose
    · simp [BuildSol, BuildSol.loop, hread, hcomp, hv, sliceFrom, hlen, hbin, hwabi, habi,
        marshalJSON, MarshalIndent, errorOf]
    · obtain ⟨doc, hdoc⟩ := hmap hv
      simp [BuildSol, BuildSol.loop, hread, hcomp, hv, sliceFrom, hlen, hbin, hwabi, habi,
        marshalJSON, MarshalIndent, hdoc, errorOf]

/-- C8, the claim as written fails: for a compiler output whose one contract
has the qualified name `Token` (5 bytes), the slice `contractName[8:]` panics;
`BuildSol` has read the source and run the compiler, and writes no file. -/
theorem BuildSol_short_name_panics :
    BuildSol (sampleEnv false (sampleClient (.ok (some 5)) (.ok [])) (oneContract (goStr "Token")))
        (goStr "Token.sol") [(goStr "Token.sol", goStr "contract Token \x7b\x7d")]
      = ⟨.panic, [(goStr "Token.sol", goStr "contract Token \x7b\x7d")],
          [.call (.ReadFile (goStr "Token.sol")) none,
           .call (.CompileSolidityString (goStr "contract Token \x7b\x7d")) none]⟩
    ∧ writes (BuildSol (sampleEnv false (sampleClient (.ok (some 5)) (.ok []))
          (oneContract (goStr "Token")))
        (goStr "Token.sol") [(goStr "Token.sol", goStr "contract Token \x7b\x7d")]).trace
      = [] := ⟨rfl, rfl⟩

/-- The concrete instance of C8 as the code has it: the one contract
`<stdin>:Token` gives `Token.bin` and `Token.abi`. -/
theorem BuildSol_one_contract_witness :
    writes (BuildSol (sampleEnv false (sampleClient (.ok (some 5)) (.ok []))
          (oneContract (goStr "<stdin>:Token")))
        (goStr "Token.sol") [(goStr "Token.sol", goStr "contract Token \x7b\x7d")]).trace
      = [(goStr "Token.bin", goStr "6080", 0o600, none),
         (goStr "Token.abi", goStr "[]", 0o600, none)] :=
  (BuildSol_one_contract (sampleEnv false (sampleClient (.ok (some 5)) (.ok []))
          (oneContract (goStr "<stdin>:Token")))
    (goStr "Token.sol") (goStr "contract Token \x7b\x7d") (goStr "<stdin>:Token")
    sampleContract (.ok (.obj [])) (.arr [])
    [(goStr "Token.sol", goStr "contract Token \x7b\x7d")]
    [(goStr "Token.sol", goStr "contract Token \x7b\x7d")]
    [(goStr "Token.sol", goStr "contract Token \x7b\x7d")]
    rfl rfl (fun _ => ⟨_, rfl⟩) (by decide) rfl rfl rfl).2.1

/-- The concrete instance of C9: `contract deploy Token.bin` in a world
without files. -/
theorem DeploySol_missing_file_witness :
    (DeploySol (sampleEnv false (sampleClient (.ok (some 5)) (.ok [])) noContracts)
        (goStr "testnet") (goStr "") (goStr "key") (goStr "Token.bin") [])
      = ⟨.fatal, [],
          [.call (.GetClient (goStr "https://testnet-rpc.gochain.io")) none,
           .call (.Stat (goStr "Token.bin")) (some missing),
           .fatal "Cannot find the bin file: %v" [.err missing]]⟩
    ∧ (DeploySol (sampleEnv false (sampleClient (.ok (some 5)) (.ok [])) noContracts)
        (goStr "testnet") (goStr "") (goStr "key") (goStr "Token.bin") []).out = .fatal :=
  ⟨rfl, (DeploySol_missing_file
    (sampleEnv false (sampleClient (.ok (some 5)) (.ok [])) noContracts)
    (goStr "testnet") (goStr "") (goStr "key") (goStr "Token.bin") []
    (fun _ _ _ h => by cases h; rfl)).1⟩

/-- The concrete instance of C10: `address 0x01` on `testnet` when `GetBalance`
fails. -/
theorem rpc_error_is_fatal_witness :
    (GetAddressDetails (sampleEnv false (sampleClient (.error refused) (.ok [])) noContracts)
        (goStr "testnet") (goStr "") (goStr "0x01") []).trace
      = [.call (.GetClient (goStr "https://testnet-rpc.gochain.io")) none]
          ++ .call (.GetBalance (goStr "0x01") none) (some refused)
          :: [.fatal "Cannot get address balance from the network: %v" [.err refused]]
    ∧ (GetAddressDetails (sampleEnv false (sampleClient (.error refused) (.ok [])) noContracts)
        (goStr "testnet") (goStr "") (goStr "0x01") []).out = .fatal :=
  ⟨rfl, ((rpc_error_is_fatal
    (sampleEnv false (sampleClient (.error refused) (.ok [])) noContracts)
    (goStr "testnet") (goStr "") (goStr "0x01") []
    [.call (.GetClient (goStr "https://testnet-rpc.gochain.io")) none]
    [.fatal "Cannot get address balance from the network: %v" [.err refused]]
    (.GetBalance (goStr "0x01") none) refused rfl).2.2.1 rfl).1⟩

end Web3Cli
